import Mathlib

/-!
Verification of the scaling-group cache / refresh manager of the
capten-autoscaler repository (`pkg/cloudprovider/aws`), as a shallow
embedding in Lean 4.

Modelling conventions:
* Go strings are modelled as `String` / `List Char` (the identifiers and
  discovery specs the claims mention are ASCII, where Go's byte slicing
  `id[7:]` and character dropping agree).
* Go `int` is modelled as `Int`; `time.Time` / `time.Duration` as `Int`
  nanoseconds, with `time.Now()` passed in explicitly as a `now` argument.
* Go's `(value, error)` returns are modelled as `Except String _` or as a
  pair with an `Option String` error component.
* The `asgCache` type is not part of the repository's staged sources; where
  the manager or the node-group façade calls into it, the call's outcome is
  passed in as an explicit oracle argument (for `regenerate`,
  `asgCache.DeleteInstances`, `InstancesByAsg`) or as a lookup function
  (for `FindForInstance`), and `SetAsgSize` is modelled from the spec.
-/

namespace CaptenAutoscaler

/-! ## Character classes of `validAwsRefIdRegex`

The source regex (manager.go) is
`^aws\:\/\/\/[-0-9a-z]*\/[-0-9a-z]*(\/[-0-9a-z\.]*)?$|aws\:\/\/\/[-0-9a-z]*\/<placeholder>.*$`.
-/

/-- One character of the regex class `[-0-9a-z]`. -/
def isZoneChar (c : Char) : Bool := c == '-' || c.isDigit || c.isLower

/-- One character of the regex class `[-0-9a-z\.]`. -/
def isExtChar (c : Char) : Bool := isZoneChar c || c == '.'

/-! ## Go `strings.Split` / `strings.SplitN(_, _, 2)` on a one-character
separator (every separator the embedded code uses — `:`, `=`, `,`, `/` — is
one character). -/

/-- Go `strings.Split(s, sep)` for a one-character separator. -/
def splitOnChar (sep : Char) : List Char → List (List Char)
  | [] => [[]]
  | c :: cs =>
    if c == sep then [] :: splitOnChar sep cs
    else
      match splitOnChar sep cs with
      | [] => [[c]]
      | p :: ps => (c :: p) :: ps

/-- Go `strings.SplitN(s, sep, 2)` for a one-character separator: split at
the first occurrence only. -/
def splitN2 (sep : Char) : List Char → List (List Char)
  | [] => [[]]
  | c :: cs =>
    if c == sep then [[], cs]
    else
      match splitN2 sep cs with
      | [] => [[c]]
      | [p] => [c :: p]
      | p :: ps => (c :: p) :: ps

/-! ## Instance identifiers (`AwsRefFromProviderId`) -/

/-- `AwsInstanceRef` of the source: a provider id plus the instance name. -/
structure AwsInstanceRef where
  ProviderID : String
  Name : String
deriving DecidableEq, Repr

/-- Modelled from the spec: the reserved placeholder-name denoting an
instance not yet visible to the remote listing API. The constant
`placeholderInstanceNamePrefix` is referenced by `validAwsRefIdRegex` but
declared in a file that is not among the staged sources; its concrete value
is irrelevant to every statement below (they hold for any value). -/
def placeholderInstanceNamePrefix : String := "i-placeholder"

/-- Does `pat` occur as a contiguous run somewhere in `cs`? -/
def containsSeq (pat : List Char) : List Char → Bool
  | [] => pat.isPrefixOf []
  | c :: cs => pat.isPrefixOf (c :: cs) || containsSeq pat cs

/-- First alternative of `validAwsRefIdRegex`, anchored on both sides:
`^aws\:\/\/\/[-0-9a-z]*\/[-0-9a-z]*(\/[-0-9a-z\.]*)?$`. Since the character
classes exclude `/`, the alternative holds exactly when the text after the
scheme marker splits on `/` into two or three segments of the right
classes. -/
def alt1Match (cs : List Char) : Bool :=
  "aws:///".data.isPrefixOf cs &&
    match splitOnChar '/' (cs.drop 7) with
    | [z, n] => z.all isZoneChar && n.all isZoneChar
    | [z, n, e] => z.all isZoneChar && n.all isZoneChar && e.all isExtChar
    | _ => false

/-- Second alternative of `validAwsRefIdRegex` matched at the start of
`cs`: `aws\:\/\/\/[-0-9a-z]*\/<placeholder>.*$`. The zone run is forced to
be maximal because `/` is outside the class. (`.*$` is read as "any tail",
a superset of Go's newline-excluding `.`; no statement below depends on the
difference.) -/
def alt2MatchAt (cs : List Char) : Bool :=
  "aws:///".data.isPrefixOf cs &&
    match (cs.drop 7).dropWhile isZoneChar with
    | '/' :: tail => placeholderInstanceNamePrefix.data.isPrefixOf tail
    | _ => false

/-- Second alternative of the regex, unanchored at the start (the `^` of
the source regex binds only to the first alternative), so it may match at
any position. -/
def alt2MatchSomewhere : List Char → Bool
  | [] => alt2MatchAt []
  | c :: cs => alt2MatchAt (c :: cs) || alt2MatchSomewhere cs

/-- `validAwsRefIdRegex.FindStringSubmatch(id) != nil`. -/
def validAwsRefIdMatch (id : String) : Bool :=
  alt1Match id.data || alt2MatchSomewhere id.data

/-- `AwsRefFromProviderId` of the source: reject ids the regex does not
match, else return the ref with the name taken from the second
slash-separated segment of `id[7:]`. -/
def AwsRefFromProviderId (id : String) : Except String AwsInstanceRef :=
  if validAwsRefIdMatch id then
    .ok { ProviderID := id
          Name := String.mk ((splitOnChar '/' (id.data.drop 7)).getD 1 []) }
  else
    .error ("wrong id: expected format aws:///<zone>/<name>, got " ++ id)

/-! ## Discovery specs (`parseASGAutoDiscoverySpec`) -/

/-- `autoDiscovererTypeASG` of the source. -/
def autoDiscovererTypeASG : String := "asg"

/-- `asgAutoDiscovererKeyTag` of the source. -/
def asgAutoDiscovererKeyTag : String := "tag"

/-- `asgAutoDiscoveryConfig` of the source. The Go `map[string]string` is
modelled as an association list without duplicate keys, built by
`insertTag` (later assignments to an existing key overwrite it in place,
new keys append). -/
structure asgAutoDiscoveryConfig where
  Tags : List (String × String)
deriving DecidableEq, Repr

/-- `cfg.Tags[k] = v` on the association-list model of the Go map. -/
def insertTag (m : List (String × String)) (k v : String) : List (String × String) :=
  if m.any (fun p => p.1 == k) then
    m.map (fun p => if p.1 == k then (k, v) else p)
  else m ++ [(k, v)]

/-- `parseASGAutoDiscoverySpec` of the source, on the spec's characters. -/
def parseASGAutoDiscoverySpecCore (cs : List Char) : asgAutoDiscoveryConfig × Option String :=
  match splitN2 ':' cs with
  | [d, param] =>
    if String.mk d != autoDiscovererTypeASG then
      (⟨[]⟩, some ("unsupported discoverer specified: " ++ String.mk d))
    else
      match splitN2 '=' param with
      | [k, v] =>
        if String.mk k != asgAutoDiscovererKeyTag then
          (⟨[]⟩, some ("unsupported parameter key \"" ++ String.mk k ++
            "\" is specified for discoverer \"" ++ String.mk d ++
            "\". The only supported key is \"" ++ asgAutoDiscovererKeyTag ++ "\""))
        else if v.isEmpty then
          (⟨[]⟩, some "tag value not supplied")
        else
          let p := splitOnChar ',' v
          if p.length = 0 then
            (⟨[]⟩, some "invalid ASG tag for auto discovery specified: ASG tag must not be empty")
          else
            let tags := p.foldl (fun m label =>
              match splitN2 '=' label with
              | [k0, v0] => insertTag m (String.mk k0) (String.mk v0)
              | [k0] => insertTag m (String.mk k0) ""
              | _ => m) []
            (⟨tags⟩, none)
      | _ => (⟨[]⟩, some ("invalid key=value pair " ++ String.mk param))
  | _ => (⟨[]⟩, some ("invalid node group auto discovery spec specified via --node-group-auto-discovery: " ++ String.mk cs))

/-- `parseASGAutoDiscoverySpec` of the source. -/
def parseASGAutoDiscoverySpec (spec : String) : asgAutoDiscoveryConfig × Option String :=
  parseASGAutoDiscoverySpecCore spec.data

/-- Modelled from the spec: the Discovery Filter's match predicate used by
`regenerate` (the `asgCache` file is not among the staged sources) — "a
group matches iff every configured tag key is present with the configured
value (or any value, if the configured value is empty)". -/
def matchesTags (cfg : List (String × String)) (groupTags : List (String × String)) : Bool :=
  cfg.all fun kv => groupTags.any fun gt => gt.1 == kv.1 && (kv.2 == "" || gt.2 == kv.2)

/-! ## The manager's refresh clock (`Refresh` / `forceRefresh` /
`AwsManager.DeleteInstances`) -/

/-- `refreshInterval` of the source: `1 * time.Minute` in nanoseconds. -/
def refreshInterval : Int := 60000000000

/-- The manager, reduced to the state the embedded operations touch: the
refresh clock. `awsService`, `asgCache` and `instanceTypes` live behind
oracle arguments of the operations. -/
structure AwsManager where
  lastRefresh : Int
deriving DecidableEq, Repr

/-- `forceRefresh` of the source. `regen` is the outcome of
`asgCache.regenerate()` (an error, or `none` for success); `now` is
`time.Now()`. The pair's second component is the returned error. -/
def forceRefresh (regen : Option String) (now : Int) (m : AwsManager) : AwsManager × Option String :=
  match regen with
  | some e => (m, some e)
  | none => ({ m with lastRefresh := now }, none)

/-- `AwsManager.Refresh` of the source: a no-op unless
`lastRefresh + refreshInterval` is not after `now`. -/
def AwsManager.Refresh (regen : Option String) (now : Int) (m : AwsManager) : AwsManager × Option String :=
  if m.lastRefresh + refreshInterval > now then (m, none)
  else forceRefresh regen now m

/-- `AwsManager.DeleteInstances` of the source. `cacheResult` is the outcome
of `asgCache.DeleteInstances(instances)`; on success the refresh clock is
rewound one interval behind `now`. -/
def AwsManager.DeleteInstances (cacheResult : Option String) (now : Int) (m : AwsManager)
    (instances : List AwsInstanceRef) : AwsManager × Option String :=
  match cacheResult with
  | some e => (m, some e)
  | none => ({ m with lastRefresh := now - refreshInterval }, none)

/-! ## The node-group façade (`AwsNodeGroup`) -/

/-- `AwsRef` of the source: a name identifying an ASG. -/
structure AwsRef where
  Name : String
deriving DecidableEq, Repr

/-- `asg` of the source, reduced to the fields the embedded façade
operations read: the embedded `AwsRef` and the size bounds. -/
structure asg where
  AwsRef : AwsRef
  minSize : Int
  maxSize : Int
  curSize : Int
deriving DecidableEq, Repr

/-- `AwsNodeGroup` of the source; the `awsManager` field is replaced by
oracle arguments on the operations that reach the manager. -/
structure AwsNodeGroup where
  asg : asg
deriving DecidableEq, Repr

/-- The part of a Kubernetes `*apiv1.Node` the façade reads: `node.Name`
and `node.Spec.ProviderID`. -/
structure Node where
  name : String
  providerID : String
deriving DecidableEq, Repr

/-- `AwsNodeGroup.MinSize` of the source. -/
def AwsNodeGroup.MinSize (ng : AwsNodeGroup) : Int := ng.asg.minSize

/-- `AwsNodeGroup.MaxSize` of the source. -/
def AwsNodeGroup.MaxSize (ng : AwsNodeGroup) : Int := ng.asg.maxSize

/-- `AwsNodeGroup.Id` of the source. -/
def AwsNodeGroup.Id (ng : AwsNodeGroup) : String := ng.asg.AwsRef.Name

/-- `AwsNodeGroup.Belongs` of the source. `cache` is the instance→group
index `GetAsgForInstance` reads (the `AwsRef` of the owning cached ASG, or
`none` for a miss). -/
def AwsNodeGroup.Belongs (cache : AwsInstanceRef → Option AwsRef) (ng : AwsNodeGroup)
    (node : Node) : Except String Bool :=
  match AwsRefFromProviderId node.providerID with
  | .error e => .error e
  | .ok ref =>
    match cache ref with
    | none => .error (node.name ++ " doesn't belong to a known asg")
    | some target => .ok (target == ng.asg.AwsRef)

/-- The loop body of `AwsNodeGroup.DeleteNodes`: translate each node to an
instance ref, rejecting the whole batch on the first node that fails to
parse or does not belong to this group. -/
def deleteNodesLoop (cache : AwsInstanceRef → Option AwsRef) (ng : AwsNodeGroup) :
    List Node → List AwsInstanceRef → Except String (List AwsInstanceRef)
  | [], refs => .ok refs
  | node :: rest, refs =>
    match ng.Belongs cache node with
    | .error e => .error e
    | .ok belongs =>
      if !belongs then .error (node.name ++ " belongs to a different asg than " ++ ng.Id)
      else
        match AwsRefFromProviderId node.providerID with
        | .error e => .error e
        | .ok awsref => deleteNodesLoop cache ng rest (refs ++ [awsref])

/-- `AwsNodeGroup.DeleteNodes` of the source. A `.ok refs` result models
reaching `ng.awsManager.DeleteInstances(refs)` — the call that terminates
instances remotely — with exactly those refs; a `.error` result models
returning before any remote termination call. -/
def AwsNodeGroup.DeleteNodes (cache : AwsInstanceRef → Option AwsRef) (ng : AwsNodeGroup)
    (nodes : List Node) : Except String (List AwsInstanceRef) :=
  if ng.asg.curSize ≤ ng.MinSize then .error "min size reached, nodes will not be deleted"
  else deleteNodesLoop cache ng nodes []

/-- Modelled from the spec: `asgCache.SetAsgSize` (not among the staged
sources) — "validates `minSize ≤ newSize ≤ maxSize` for the target group;
issues the remote set-desired-size call; on success, updates the cached
`currentSize` in place". `remote` is the outcome of the remote call. -/
def SetAsgSize (remote : Option String) (a : asg) (size : Int) : Except String asg :=
  if a.minSize ≤ size ∧ size ≤ a.maxSize then
    match remote with
    | some e => .error e
    | none => .ok { a with curSize := size }
  else .error "size validation failed"

/-- `AwsNodeGroup.IncreaseSize` of the source; a `.ok` result carries the
node group with its cached ASG as updated by `SetAsgSize`. -/
def AwsNodeGroup.IncreaseSize (remote : Option String) (ng : AwsNodeGroup)
    (delta : Int) : Except String AwsNodeGroup :=
  if delta ≤ 0 then .error "size increase must be positive"
  else if ng.asg.curSize + delta > ng.asg.maxSize then
    .error "size increase too large"
  else (SetAsgSize remote ng.asg (ng.asg.curSize + delta)).map fun a => { ng with asg := a }

/-- `AwsNodeGroup.DecreaseTargetSize` of the source. `nodesResult` is the
outcome of `awsManager.GetAsgNodes(ng.asg.AwsRef)` (the registered nodes of
the group, read from the cache). -/
def AwsNodeGroup.DecreaseTargetSize (remote : Option String)
    (nodesResult : Except String (List AwsInstanceRef)) (ng : AwsNodeGroup)
    (delta : Int) : Except String AwsNodeGroup :=
  if delta ≥ 0 then .error "size decrease size must be negative"
  else
    match nodesResult with
    | .error e => .error e
    | .ok nodes =>
      if ng.asg.curSize + delta < (nodes.length : Int) then
        .error "attempt to delete existing nodes"
      else (SetAsgSize remote ng.asg (ng.asg.curSize + delta)).map fun a => { ng with asg := a }

/-! ## `aws_util.go` -/

/-- `InstanceType` of the source, reduced to an identifying name (the
claims below do not read its fields). -/
structure InstanceType where
  InstanceTypeName : String
deriving DecidableEq, Repr

/-- An AWS SDK session, as far as `GenerateEC2InstanceTypes` reads it (it
reads nothing of it). -/
structure Session where
  region : String
deriving DecidableEq, Repr

/-- `GenerateEC2InstanceTypes` of the source: it builds an empty map and
immediately fails its emptiness check, so it returns `nil` and an error. -/
def GenerateEC2InstanceTypes (sess : Session) : Option (List (String × InstanceType)) × Option String :=
  let instanceTypes : List (String × InstanceType) := []
  if instanceTypes.length = 0 then
    (none, some "unable to load EC2 Instance Type list")
  else (some instanceTypes, none)

/-! ## Supporting lemmas -/

theorem isPrefixOf_containsSeq (pat cs : List Char) (h : pat.isPrefixOf cs = true) :
    containsSeq pat cs = true := by
  cases cs with
  | nil => exact h
  | cons c cs => unfold containsSeq; rw [h]; rfl

theorem alt2Somewhere_containsSeq (cs : List Char) (h : alt2MatchSomewhere cs = true) :
    containsSeq "aws:///".data cs = true := by
  induction cs with
  | nil =>
    unfold alt2MatchSomewhere alt2MatchAt at h
    exact isPrefixOf_containsSeq _ _ (Bool.and_eq_true_iff.mp h).1
  | cons c cs ih =>
    unfold alt2MatchSomewhere at h
    rcases Bool.or_eq_true_iff.mp h with h1 | h2
    · unfold alt2MatchAt at h1
      exact isPrefixOf_containsSeq _ _ (Bool.and_eq_true_iff.mp h1).1
    · unfold containsSeq
      rw [ih h2]
      simp

theorem splitOnChar_no_sep (sep : Char) (cs : List Char) (h : cs.contains sep = false) :
    splitOnChar sep cs = [cs] := by
  induction cs with
  | nil => rfl
  | cons c cs ih =>
    rw [List.contains_cons, Bool.or_eq_false_iff] at h
    have hc : (c == sep) = false := by
      rw [Bool.eq_false_iff]
      intro hcc
      exact (Bool.eq_false_iff.mp h.1) (by rwa [beq_iff_eq, eq_comm, ← beq_iff_eq] at hcc)
    rw [splitOnChar, hc, ih h.2]
    simp

theorem splitOnChar_ne_nil (sep : Char) (cs : List Char) : splitOnChar sep cs ≠ [] := by
  cases cs with
  | nil => simp [splitOnChar]
  | cons c cs =>
    rw [splitOnChar]
    by_cases hc : (c == sep) = true
    · rw [hc]; simp
    · rw [Bool.not_eq_true] at hc
      rw [hc]
      cases splitOnChar sep cs <;> simp

theorem mem_of_contains_false {c : Char} {l : List Char} (h : l.contains c = false) : c ∉ l := by
  intro hmem
  rw [show l.contains c = l.elem c from rfl, List.elem_iff.mpr hmem] at h
  exact Bool.noConfusion h

theorem alt1_aws_slashfree (seg : List Char) (h : seg.contains '/' = false) :
    alt1Match ('a' :: 'w' :: 's' :: ':' :: '/' :: '/' :: '/' ::seg) = false := by
  unfold alt1Match
  have hdrop : ('a' :: 'w' :: 's' :: ':' :: '/' :: '/' :: '/' ::seg).drop 7 = seg := rfl
  rw [hdrop, splitOnChar_no_sep '/' seg h]
  simp

theorem alt2At_aws_slashfree (seg : List Char) (h : seg.contains '/' = false) :
    alt2MatchAt ('a' :: 'w' :: 's' :: ':' :: '/' :: '/' :: '/' ::seg) = false := by
  unfold alt2MatchAt
  have hdrop : ('a' :: 'w' :: 's' :: ':' :: '/' :: '/' :: '/' ::seg).drop 7 = seg := rfl
  rw [hdrop]
  cases hd : seg.dropWhile isZoneChar with
  | nil => simp
  | cons c tail =>
    have hcmem : c ∈ seg :=
      (List.dropWhile_sublist isZoneChar).subset (hd ▸ List.mem_cons_self c tail)
    have hcne : c ≠ '/' := fun hcc => mem_of_contains_false h (hcc ▸ hcmem)
    split
    · rename_i heq
      exact absurd (List.head_eq_of_cons_eq heq.symm).symm hcne
    · simp

theorem alt2Somewhere_slashfree (u : List Char) (h : u.contains '/' = false) :
    alt2MatchSomewhere u = false := by
  induction u with
  | nil => rfl
  | cons c cs ih =>
    rw [List.contains_cons, Bool.or_eq_false_iff] at h
    have hAt : alt2MatchAt (c :: cs) = false := by
      unfold alt2MatchAt
      cases hp : "aws:///".data.isPrefixOf (c :: cs) with
      | false => rfl
      | true =>
        exfalso
        have hpre : "aws:///".data <+: (c :: cs) := List.isPrefixOf_iff_prefix.mp hp
        have hm : ('/' : Char) ∈ c :: cs := hpre.subset (by decide)
        rcases List.mem_cons.mp hm with hh | hm2
        · rw [← hh, beq_self_eq_true] at h; exact Bool.noConfusion h.1
        · exact mem_of_contains_false h.2 hm2
    rw [alt2MatchSomewhere, hAt, ih h.2, Bool.or_false]

theorem alt2Somewhere_aws_slashfree (seg : List Char) (h : seg.contains '/' = false) :
    alt2MatchSomewhere ('a' :: 'w' :: 's' :: ':' :: '/' :: '/' :: '/' ::seg) = false := by
  rw [alt2MatchSomewhere, alt2At_aws_slashfree seg h, Bool.false_or,
    alt2MatchSomewhere, show alt2MatchAt ('w' :: 's' :: ':' :: '/' :: '/' :: '/' ::seg) = false from rfl,
    Bool.false_or,
    alt2MatchSomewhere, show alt2MatchAt ('s' :: ':' :: '/' :: '/' :: '/' ::seg) = false from rfl,
    Bool.false_or,
    alt2MatchSomewhere, show alt2MatchAt (':' :: '/' :: '/' :: '/' ::seg) = false from rfl,
    Bool.false_or,
    alt2MatchSomewhere, show alt2MatchAt ('/' :: '/' :: '/' ::seg) = false from rfl,
    Bool.false_or,
    alt2MatchSomewhere, show alt2MatchAt ('/' :: '/' ::seg) = false from rfl,
    Bool.false_or,
    alt2MatchSomewhere, show alt2MatchAt ('/' ::seg) = false from rfl,
    Bool.false_or]
  exact alt2Somewhere_slashfree seg h

theorem splitN2_no_sep (sep : Char) (cs : List Char) (h : cs.contains sep = false) :
    splitN2 sep cs = [cs] := by
  induction cs with
  | nil => rfl
  | cons c cs ih =>
    rw [List.contains_cons, Bool.or_eq_false_iff] at h
    have hc : (c == sep) = false := by
      rw [Bool.eq_false_iff]
      intro hcc
      exact (Bool.eq_false_iff.mp h.1) (by rwa [beq_iff_eq, eq_comm, ← beq_iff_eq] at hcc)
    rw [splitN2, hc, ih h.2]
    simp

theorem splitN2_found (sep : Char) (a b : List Char) (h : a.contains sep = false) :
    splitN2 sep (a ++ sep :: b) = [a, b] := by
  induction a with
  | nil => simp [splitN2]
  | cons c a ih =>
    rw [List.contains_cons, Bool.or_eq_false_iff] at h
    have hc : (c == sep) = false := by
      rw [Bool.eq_false_iff]
      intro hcc
      exact (Bool.eq_false_iff.mp h.1) (by rwa [beq_iff_eq, eq_comm, ← beq_iff_eq] at hcc)
    rw [List.cons_append, splitN2, hc, ih h.2]
    simp

theorem belongs_ok_shape (cache : AwsInstanceRef → Option AwsRef) (ng : AwsNodeGroup)
    (node : Node) (b : Bool) (h : ng.Belongs cache node = .ok b) :
    ∃ r target, AwsRefFromProviderId node.providerID = .ok r ∧ cache r = some target
      ∧ b = (target == ng.asg.AwsRef) := by
  unfold AwsNodeGroup.Belongs at h
  cases hp : AwsRefFromProviderId node.providerID with
  | error e => simp only [hp] at h; exact Except.noConfusion h
  | ok r =>
    simp only [hp] at h
    cases hc : cache r with
    | none => simp only [hc] at h; exact Except.noConfusion h
    | some target =>
      simp only [hc, Except.ok.injEq] at h
      exact ⟨r, target, rfl, hc, h.symm⟩

theorem deleteNodesLoop_ok_resolves (cache : AwsInstanceRef → Option AwsRef) (ng : AwsNodeGroup)
    (nodes : List Node) :
    ∀ (acc out : List AwsInstanceRef), deleteNodesLoop cache ng nodes acc = .ok out →
      ∀ node ∈ nodes, ∃ r, AwsRefFromProviderId node.providerID = .ok r
        ∧ cache r = some ng.asg.AwsRef := by
  induction nodes with
  | nil => intro acc out _ node hmem; cases hmem
  | cons n0 rest ih =>
    intro acc out h node hmem
    rw [deleteNodesLoop] at h
    cases hB : ng.Belongs cache n0 with
    | error e => simp only [hB] at h; exact Except.noConfusion h
    | ok b =>
      simp only [hB] at h
      cases b with
      | false => simp at h
      | true =>
        simp only [Bool.not_true, Bool.false_eq_true, if_false] at h
        obtain ⟨r, target, hp, hc, hbt⟩ := belongs_ok_shape cache ng n0 true hB
        simp only [hp] at h
        rcases List.mem_cons.mp hmem with rfl | hmem'
        · exact ⟨r, hp, by rw [hc, beq_iff_eq.mp hbt.symm]⟩
        · exact ih _ _ h node hmem'

theorem parse_spec_no_colon (cs : List Char) (h : cs.contains ':' = false) :
    parseASGAutoDiscoverySpecCore cs
      = (⟨[]⟩, some ("invalid node group auto discovery spec specified via --node-group-auto-discovery: "
          ++ String.mk cs)) := by
  unfold parseASGAutoDiscoverySpecCore
  rw [splitN2_no_sep ':' cs h]

theorem parse_spec_bad_discoverer (d rest : List Char) (hc : d.contains ':' = false)
    (hne : String.mk d ≠ autoDiscovererTypeASG) :
    parseASGAutoDiscoverySpecCore (d ++ ':' :: rest)
      = (⟨[]⟩, some ("unsupported discoverer specified: " ++ String.mk d)) := by
  unfold parseASGAutoDiscoverySpecCore
  rw [splitN2_found ':' d rest hc]
  simp only [bne_iff_ne, ne_eq, ite_not, if_neg hne]

theorem parse_spec_bad_key (k v : List Char) (hk : k.contains '=' = false)
    (hne : String.mk k ≠ asgAutoDiscovererKeyTag) :
    parseASGAutoDiscoverySpecCore ('a' :: 's' :: 'g' :: ':' ::(k ++ '=' :: v))
      = (⟨[]⟩, some ("unsupported parameter key \"" ++ String.mk k ++
          "\" is specified for discoverer \"" ++ "asg" ++
          "\". The only supported key is \"" ++ asgAutoDiscovererKeyTag ++ "\"")) := by
  show parseASGAutoDiscoverySpecCore (['a','s','g'] ++ ':' :: (k ++ '=' :: v)) = _
  unfold parseASGAutoDiscoverySpecCore
  rw [splitN2_found ':' ['a','s','g'] _ (by decide)]
  simp only [show (String.mk ['a','s','g'] != autoDiscovererTypeASG) = false from rfl,
    Bool.false_eq_true, if_false]
  rw [splitN2_found '=' k v hk]
  simp only [bne_iff_ne, ne_eq, ite_not, if_neg hne]

theorem parse_spec_missing_eq (param : List Char) (hp : param.contains '=' = false) :
    parseASGAutoDiscoverySpecCore ('a' :: 's' :: 'g' :: ':' ::param)
      = (⟨[]⟩, some ("invalid key=value pair " ++ String.mk param)) := by
  show parseASGAutoDiscoverySpecCore (['a','s','g'] ++ ':' :: param) = _
  unfold parseASGAutoDiscoverySpecCore
  rw [splitN2_found ':' ['a','s','g'] _ (by decide)]
  simp only [show (String.mk ['a','s','g'] != autoDiscovererTypeASG) = false from rfl,
    Bool.false_eq_true, if_false]
  rw [splitN2_no_sep '=' param hp]

theorem parse_spec_wellformed_ok (v : List Char) (hv : v ≠ []) :
    (parseASGAutoDiscoverySpecCore ('a' :: 's' :: 'g' :: ':' :: 't' :: 'a' :: 'g' :: '=' ::v)).2 = none := by
  show (parseASGAutoDiscoverySpecCore (['a','s','g'] ++ ':' :: (['t','a','g'] ++ '=' :: v))).2
    = none
  unfold parseASGAutoDiscoverySpecCore
  rw [splitN2_found ':' ['a','s','g'] _ (by decide)]
  simp only [show (String.mk ['a','s','g'] != autoDiscovererTypeASG) = false from rfl,
    Bool.false_eq_true, if_false]
  rw [splitN2_found '=' ['t','a','g'] v (by decide)]
  simp only [show (String.mk ['t','a','g'] != asgAutoDiscovererKeyTag) = false from rfl,
    Bool.false_eq_true, if_false]
  have hvempty : v.isEmpty = false := by
    cases v with
    | nil => exact absurd rfl hv
    | cons c cs => rfl
  rw [hvempty]
  simp only [Bool.false_eq_true, if_false]
  have hlen : ¬ ((splitOnChar ',' v).length = 0) := by
    intro h0
    exact splitOnChar_ne_nil ',' v (List.length_eq_zero.mp h0)
  rw [if_neg hlen]

/-! ## The claims -/

/-- Claim C1: `Refresh()` is a no-op — it returns no error and neither
consults `regenerate()`'s outcome nor touches any state — whenever `now`
is earlier than `lastRefresh + refreshInterval`; otherwise it delegates to
`forceRefresh()`, which calls `regenerate()` and, on success, sets
`lastRefresh := now`, while on regeneration failure it returns that error
and leaves `lastRefresh` unchanged. -/
theorem awsManager_refresh_gating (m : AwsManager) (now : Int) (regen : Option String) :
    (now < m.lastRefresh + refreshInterval → m.Refresh regen now = (m, none))
    ∧ (m.lastRefresh + refreshInterval ≤ now → m.Refresh regen now = forceRefresh regen now m)
    ∧ forceRefresh none now m = ({ m with lastRefresh := now }, none)
    ∧ (∀ e, forceRefresh (some e) now m = (m, some e)) := by
  refine ⟨?_, ?_, rfl, fun e => rfl⟩
  · intro h
    unfold AwsManager.Refresh
    rw [if_pos]
    exact h
  · intro h
    unfold AwsManager.Refresh
    rw [if_neg]
    omega

/-- Claim C2: a successful `AwsManager.DeleteInstances` sets `lastRefresh`
to `now - refreshInterval`, so every `Refresh()` at a time at or after
`now` takes the `forceRefresh` path (full regeneration) instead of waiting
out the interval; when the cache deletion fails, the error is propagated
and `lastRefresh` is unchanged. -/
theorem awsManager_deleteInstances_rewind (m : AwsManager) (now : Int)
    (instances : List AwsInstanceRef) :
    (AwsManager.DeleteInstances none now m instances
        = ({ m with lastRefresh := now - refreshInterval }, none))
    ∧ (∀ e, AwsManager.DeleteInstances (some e) now m instances = (m, some e))
    ∧ (∀ (nowNext : Int) (regen : Option String), now ≤ nowNext →
        AwsManager.Refresh regen nowNext (AwsManager.DeleteInstances none now m instances).1
          = forceRefresh regen nowNext (AwsManager.DeleteInstances none now m instances).1) := by
  refine ⟨rfl, fun e => rfl, ?_⟩
  intro nowNext regen h
  have hcond : ¬ ((AwsManager.DeleteInstances none now m instances).1.lastRefresh
      + refreshInterval > nowNext) := by
    show ¬ (now - refreshInterval + refreshInterval > nowNext)
    omega
  unfold AwsManager.Refresh
  rw [if_neg hcond]

/-- Claim C3, counterexample: the claim's identifier uses the scheme
`cloud`, but the source regex only accepts the scheme `aws`, so parsing
`"cloud:///us-east-1a/i-0abc123"` fails rather than succeeding. -/
theorem cloud_scheme_identifier_rejected :
    AwsRefFromProviderId "cloud:///us-east-1a/i-0abc123"
      = .error "wrong id: expected format aws:///<zone>/<name>, got cloud:///us-east-1a/i-0abc123" :=
  rfl

/-- Claim C3 as amended: with the scheme the code accepts (`aws`), parsing
`"aws:///us-east-1a/i-0abc123"` succeeds with name `i-0abc123` and the
zone segment (the first slash-separated segment after the scheme marker)
equal to `us-east-1a`, while `"aws:///us-east-1a"` (missing the name
segment) fails with a format error. -/
theorem aws_scheme_identifier_scenario :
    AwsRefFromProviderId "aws:///us-east-1a/i-0abc123"
      = .ok { ProviderID := "aws:///us-east-1a/i-0abc123", Name := "i-0abc123" }
    ∧ splitOnChar '/' (("aws:///us-east-1a/i-0abc123" : String).data.drop 7)
      = ["us-east-1a".data, "i-0abc123".data]
    ∧ AwsRefFromProviderId "aws:///us-east-1a"
      = .error "wrong id: expected format aws:///<zone>/<name>, got aws:///us-east-1a" :=
  ⟨rfl, rfl, rfl⟩

/-- Claim C4, counterexample: an identifier with three slash-separated
segments after the scheme — a segment count outside the spec's
`scheme:///<zone>/<name>` grammar — is accepted by the parser rather than
rejected, so "wrong number of slash-separated segments" does not always
produce a format error. -/
theorem third_segment_identifier_accepted :
    AwsRefFromProviderId "aws:///us-east-1a/i-0abc123/extra"
      = .ok { ProviderID := "aws:///us-east-1a/i-0abc123/extra", Name := "i-0abc123" } :=
  rfl

/-- Claim C4 as amended: every identifier that nowhere contains the scheme
marker `aws:///`, and every identifier consisting of the scheme marker
followed by a single slash-free segment (so the zone/name split is
missing), is rejected with a format error and no reference value — the
parser returns only the error, never a partially populated reference. -/
theorem malformed_identifier_rejected :
    (∀ id : String, containsSeq "aws:///".data id.data = false →
      AwsRefFromProviderId id
        = .error ("wrong id: expected format aws:///<zone>/<name>, got " ++ id))
    ∧ (∀ seg : List Char, seg.contains '/' = false →
      AwsRefFromProviderId (String.mk ('a' :: 'w' :: 's' :: ':' :: '/' :: '/' :: '/' ::seg))
        = .error ("wrong id: expected format aws:///<zone>/<name>, got "
            ++ String.mk ('a' :: 'w' :: 's' :: ':' :: '/' :: '/' :: '/' ::seg))) := by
  constructor
  · intro id h
    have hv : validAwsRefIdMatch id = false := by
      unfold validAwsRefIdMatch
      rw [Bool.or_eq_false_iff]
      constructor
      · cases h1 : alt1Match id.data with
        | false => rfl
        | true =>
          exfalso
          rw [alt1Match] at h1
          rw [isPrefixOf_containsSeq _ _ (Bool.and_eq_true_iff.mp h1).1] at h
          exact Bool.noConfusion h
      · cases h2 : alt2MatchSomewhere id.data with
        | false => rfl
        | true =>
          exfalso
          rw [alt2Somewhere_containsSeq _ h2] at h
          exact Bool.noConfusion h
    unfold AwsRefFromProviderId
    rw [if_neg (by rw [hv]; exact Bool.false_ne_true)]
  · intro seg h
    have hv : validAwsRefIdMatch (String.mk ('a' :: 'w' :: 's' :: ':' :: '/' :: '/' :: '/' ::seg)) = false := by
      show (alt1Match ('a' :: 'w' :: 's' :: ':' :: '/' :: '/' :: '/' ::seg)
        || alt2MatchSomewhere ('a' :: 'w' :: 's' :: ':' :: '/' :: '/' :: '/' ::seg)) = false
      rw [alt1_aws_slashfree seg h, alt2Somewhere_aws_slashfree seg h]
      rfl
    unfold AwsRefFromProviderId
    rw [if_neg (by rw [hv]; exact Bool.false_ne_true)]

/-- Claim C5: when the cached current size of the group is at or below its
configured minimum, `DeleteNodes` rejects the whole batch with the
min-size error — for every instance→group index and every node list, so
before resolving any node's membership, and with no remote termination
call (an error result is returned before `DeleteInstances` is reached). -/
theorem deleteNodes_min_size_guard (cache : AwsInstanceRef → Option AwsRef)
    (ng : AwsNodeGroup) (nodes : List Node) (h : ng.asg.curSize ≤ ng.MinSize) :
    ng.DeleteNodes cache nodes = .error "min size reached, nodes will not be deleted" := by
  unfold AwsNodeGroup.DeleteNodes
  rw [if_pos h]

/-- Witness for C5 at a concrete group of size 1 = minimum 1. -/
theorem deleteNodes_min_size_guard_witness :
    AwsNodeGroup.DeleteNodes (fun _ => none) ⟨⟨⟨"grp"⟩, 1, 5, 1⟩⟩
        [⟨"n1", "aws:///us-east-1a/i-0abc123"⟩]
      = .error "min size reached, nodes will not be deleted" :=
  deleteNodes_min_size_guard (fun _ => none) ⟨⟨⟨"grp"⟩, 1, 5, 1⟩⟩ _ (by decide)

/-- Claim C6: a `DeleteNodes` batch containing a node whose instance ref
does not resolve through the instance→group index to this very group
(it maps to a different group, to no group, or the id does not even
parse) is rejected as a whole: the result is an error, so the batch never
reaches the remote termination call. -/
theorem deleteNodes_mixed_batch_rejected (cache : AwsInstanceRef → Option AwsRef)
    (ng : AwsNodeGroup) (nodes : List Node)
    (h : ∃ node ∈ nodes, ∀ r, AwsRefFromProviderId node.providerID = .ok r →
        cache r ≠ some ng.asg.AwsRef) :
    ∃ e, ng.DeleteNodes cache nodes = .error e := by
  obtain ⟨node, hmem, hbad⟩ := h
  cases hres : ng.DeleteNodes cache nodes with
  | error e => exact ⟨e, rfl⟩
  | ok out =>
    exfalso
    unfold AwsNodeGroup.DeleteNodes at hres
    split_ifs at hres with hmin
    obtain ⟨r, hp, hc⟩ := deleteNodesLoop_ok_resolves cache ng nodes [] out hres node hmem
    exact hbad r hp hc

/-- Witness for C6: a node of a different group than the one operated on. -/
theorem deleteNodes_mixed_batch_rejected_witness :
    ∃ e, AwsNodeGroup.DeleteNodes
        (fun r => if r.Name = "i-0abc123" then some ⟨"other-group"⟩ else none)
        ⟨⟨⟨"grp"⟩, 0, 5, 2⟩⟩ [⟨"n1", "aws:///us-east-1a/i-0abc123"⟩] = .error e :=
  deleteNodes_mixed_batch_rejected _ _ _
    ⟨⟨"n1", "aws:///us-east-1a/i-0abc123"⟩, by simp, fun r hr => by
      have hr' : Except.ok (⟨"aws:///us-east-1a/i-0abc123", "i-0abc123"⟩ : AwsInstanceRef)
          = Except.ok r := hr
      injection hr' with h2
      subst h2
      decide⟩

/-- Claim C7: every size mutation of the façade that succeeds leaves the
cached group with `minSize ≤ curSize ≤ maxSize`; `IncreaseSize` succeeds
only for a positive delta with `curSize + delta ≤ maxSize`, and
`DecreaseTargetSize` only for a negative delta that keeps the target at or
above the number of registered nodes. -/
theorem size_mutations_preserve_bounds (remote : Option String)
    (nodesResult : Except String (List AwsInstanceRef)) (ng ngInc ngDec : AwsNodeGroup)
    (dInc dDec : Int) :
    (ng.IncreaseSize remote dInc = .ok ngInc →
      0 < dInc ∧ ng.asg.curSize + dInc ≤ ng.asg.maxSize
      ∧ ngInc.asg.curSize = ng.asg.curSize + dInc
      ∧ ngInc.asg.minSize ≤ ngInc.asg.curSize ∧ ngInc.asg.curSize ≤ ngInc.asg.maxSize)
    ∧ (ng.DecreaseTargetSize remote nodesResult dDec = .ok ngDec →
      dDec < 0 ∧ (∃ nodes, nodesResult = .ok nodes
        ∧ (nodes.length : Int) ≤ ng.asg.curSize + dDec)
      ∧ ngDec.asg.curSize = ng.asg.curSize + dDec
      ∧ ngDec.asg.minSize ≤ ngDec.asg.curSize ∧ ngDec.asg.curSize ≤ ngDec.asg.maxSize) := by
  constructor
  · intro h
    unfold AwsNodeGroup.IncreaseSize at h
    split_ifs at h with h1 h2
    unfold SetAsgSize at h
    split_ifs at h with h3
    · cases remote with
      | some e => simp [Except.map] at h
      | none =>
        simp only [Except.map] at h
        cases h
        refine ⟨by omega, by omega, rfl, h3.1, h3.2⟩
    · simp [Except.map] at h
  · intro h
    unfold AwsNodeGroup.DecreaseTargetSize at h
    split_ifs at h with h1
    cases nodesResult with
    | error e => simp at h
    | ok nodes =>
      simp only at h
      split_ifs at h with h2
      unfold SetAsgSize at h
      split_ifs at h with h3
      · cases remote with
        | some e => simp [Except.map] at h
        | none =>
          simp only [Except.map] at h
          cases h
          exact ⟨by omega, ⟨nodes, rfl, by omega⟩, rfl, h3.1, h3.2⟩
      · simp [Except.map] at h

/-- Claim C8: the spec `"asg:tag=k8s-node=true,env=prod"` parses to exactly
the tags `k8s-node ↦ true, env ↦ prod`; under the Discovery Filter's match
predicate those tags match a group carrying both (plus anything else) and
reject a group carrying only `k8s-node`; and in general a group matches
this configuration iff it carries both configured key/value pairs. -/
theorem discovery_spec_scenario :
    parseASGAutoDiscoverySpec "asg:tag=k8s-node=true,env=prod"
      = (⟨[("k8s-node", "true"), ("env", "prod")]⟩, none)
    ∧ matchesTags [("k8s-node", "true"), ("env", "prod")]
        [("k8s-node", "true"), ("env", "prod"), ("other", "x")] = true
    ∧ matchesTags [("k8s-node", "true"), ("env", "prod")] [("k8s-node", "true")] = false
    ∧ ∀ g : List (String × String),
        matchesTags [("k8s-node", "true"), ("env", "prod")] g = true
          ↔ (("k8s-node", "true") ∈ g ∧ ("env", "prod") ∈ g) := by
  refine ⟨rfl, rfl, rfl, fun g => ?_⟩
  simp only [matchesTags, List.all_cons, List.all_nil, Bool.and_true, Bool.and_eq_true,
    List.any_eq_true, Bool.or_eq_true, beq_iff_eq]
  constructor
  · rintro ⟨⟨p, hp, hp1, hp2⟩, ⟨q, hq, hq1, hq2⟩⟩
    rcases hp2 with h | h
    · exact absurd h (by decide)
    · rcases hq2 with h' | h'
      · exact absurd h' (by decide)
      · constructor
        · have hpe : p = ("k8s-node", "true") := Prod.ext hp1 h
          exact hpe ▸ hp
        · have hqe : q = ("env", "prod") := Prod.ext hq1 h'
          exact hqe ▸ hq
  · rintro ⟨h1, h2⟩
    exact ⟨⟨_, h1, rfl, Or.inr rfl⟩, ⟨_, h2, rfl, Or.inr rfl⟩⟩

/-- Claim C9: `parseASGAutoDiscoverySpec` fails with a format error and the
zero configuration on a spec with no colon separator, a discoverer other
than `asg`, a parameter key other than `tag`, a missing `=` in the
discoverer parameter, or an empty tag value list — and it never errors on
a well-formed spec `asg:tag=<nonempty value list>`. -/
theorem discovery_spec_error_cases :
    (∀ cs : List Char, cs.contains ':' = false →
      parseASGAutoDiscoverySpecCore cs
        = (⟨[]⟩, some ("invalid node group auto discovery spec specified via --node-group-auto-discovery: "
            ++ String.mk cs)))
    ∧ (∀ d rest : List Char, d.contains ':' = false → String.mk d ≠ autoDiscovererTypeASG →
      parseASGAutoDiscoverySpecCore (d ++ ':' :: rest)
        = (⟨[]⟩, some ("unsupported discoverer specified: " ++ String.mk d)))
    ∧ (∀ k v : List Char, k.contains '=' = false → String.mk k ≠ asgAutoDiscovererKeyTag →
      parseASGAutoDiscoverySpecCore ('a' :: 's' :: 'g' :: ':' ::(k ++ '=' :: v))
        = (⟨[]⟩, some ("unsupported parameter key \"" ++ String.mk k ++
            "\" is specified for discoverer \"" ++ "asg" ++
            "\". The only supported key is \"" ++ asgAutoDiscovererKeyTag ++ "\"")))
    ∧ (∀ param : List Char, param.contains '=' = false →
      parseASGAutoDiscoverySpecCore ('a' :: 's' :: 'g' :: ':' ::param)
        = (⟨[]⟩, some ("invalid key=value pair " ++ String.mk param)))
    ∧ parseASGAutoDiscoverySpec "asg:tag=" = (⟨[]⟩, some "tag value not supplied")
    ∧ (∀ v : List Char, v ≠ [] →
      (parseASGAutoDiscoverySpecCore ('a' :: 's' :: 'g' :: ':' :: 't' :: 'a' :: 'g' :: '=' ::v)).2 = none) :=
  ⟨parse_spec_no_colon, parse_spec_bad_discoverer, parse_spec_bad_key,
    parse_spec_missing_eq, rfl, parse_spec_wellformed_ok⟩

/-- Claim C10: `GenerateEC2InstanceTypes` returns a nil map and a non-nil
error for every session — it can never return a populated instance-type
map. -/
theorem generateEC2InstanceTypes_always_fails (sess : Session) :
    GenerateEC2InstanceTypes sess = (none, some "unable to load EC2 Instance Type list") :=
  rfl

end CaptenAutoscaler
